import Mathlib

/-!
Verification of the codec/validation core of `atlas_paint.py` ("Special RGBA
Atlas" format). The Python model class `AtlasModel` stores a numpy array of
shape `(h, w, 4)` of uint8; here a buffer is a width, a height, and a
row-major list of 4-byte cells. Python exceptions are modelled with `Except`:
an operation that raises returns `.error e` and produces no new state (in the
source every raise happens before any write, so the in-place buffer is
unchanged on error). Numpy's indexing on an axis of size `n` accepts indices
in `[-n, n)`, wrapping negatives Python-style, and raises `IndexError`
otherwise; `npIndex` embeds that rule. Assigning an int to a uint8 numpy
element truncates modulo 256, embedded as `% 256`.
-/

/-- One (R,G,B,A) byte quadruple, the per-cell storage of the atlas. -/
structure Cell where
  r : Nat
  g : Nat
  b : Nat
  a : Nat
deriving DecidableEq, Repr

/-- The in-memory atlas: dimensions plus the row-major cell list
(`AtlasModel.arr` in the source, flattened to cells). -/
structure AtlasModel where
  w : Nat
  h : Nat
  cells : List Cell
deriving DecidableEq, Repr

/-- The error conditions the core raises (`ValueError` / numpy errors in the
source, distinguished here by constructor). -/
inductive AtlasError where
  | sizeMismatch (expected actual : Nat)
  | nonVisibleCharacter
  | indexError
  | negativeDimensions
deriving DecidableEq, Repr

deriving instance DecidableEq for Except

def VISIBLE_ASCII_MIN : Nat := 32

def VISIBLE_ASCII_MAX : Nat := 126

/-- Numpy single-axis index resolution on an axis of size `n`: a negative
index `i` means `i + n`; after that wrap the index must lie in `[0, n)`,
else `IndexError`. -/
def npIndex (n : Nat) (i : Int) : Option Nat :=
  let j := if i < 0 then i + n else i
  if 0 ≤ j ∧ j < (n : Int) then some j.toNat else none

/-- `AtlasModel.__init__(w, h)`: `np.zeros((h, w, 4), dtype=np.uint8)`.
No positivity validation is performed; numpy rejects only negative
dimensions (with `ValueError`), and zero-sized dimensions succeed with an
empty array. -/
def AtlasModel.init (w h : Int) : Except AtlasError AtlasModel :=
  if w < 0 ∨ h < 0 then .error .negativeDimensions
  else .ok ⟨w.toNat, h.toNat, List.replicate (h.toNat * w.toNat) ⟨0, 0, 0, 0⟩⟩

/-- Group a flat byte list into consecutive 4-byte cells
(`data.reshape((h, w, 4))` viewed cell-wise; the caller checks the length
first, exactly as `load_raw` does). -/
def chunk4 : List Nat → List Cell
  | r :: g :: b :: a :: rest => ⟨r, g, b, a⟩ :: chunk4 rest
  | _ => []

/-- The four bytes of a cell in file order (R, G, B, A). -/
def cellBytes (c : Cell) : List Nat := [c.r, c.g, c.b, c.a]

/-- `AtlasModel.load_raw(path, w, h)`: the file's bytes are the input list.
Raises `ValueError` ("Size mismatch: expected ... got ...") unless
`data.size == w*h*4`; on success stores `w`, `h` and the reshaped data. -/
def AtlasModel.load_raw (data : List Nat) (w h : Nat) : Except AtlasError AtlasModel :=
  let expected := w * h * 4
  if data.length ≠ expected then .error (.sizeMismatch expected data.length)
  else .ok ⟨w, h, chunk4 data⟩

/-- `AtlasModel.save_raw(path)`: writes the array's bytes verbatim,
row-major, each cell as R,G,B,A. -/
def AtlasModel.save_raw (m : AtlasModel) : List Nat := m.cells.flatMap cellBytes

/-- `AtlasModel.set_pixel(x, y, rgb)`: `arr[y, x, 0:3] = rgb; arr[y, x, 3] = 1`. -/
def AtlasModel.set_pixel (m : AtlasModel) (x y : Int) (rgb : Nat × Nat × Nat) :
    Except AtlasError AtlasModel :=
  match npIndex m.h y, npIndex m.w x with
  | some yi, some xi =>
      .ok ⟨m.w, m.h,
        m.cells.set (yi * m.w + xi) ⟨rgb.1 % 256, rgb.2.1 % 256, rgb.2.2 % 256, 1⟩⟩
  | _, _ => .error .indexError

/-- `AtlasModel.set_char(x, y, ch, rgb)`: validates that `ord(ch)` is in
`[32, 126]` (raising `ValueError` before touching the buffer otherwise),
then writes `(r, g, b, code)`. The source's `len(ch) != 1` guard is
subsumed by taking a single `Char`. -/
def AtlasModel.set_char (m : AtlasModel) (x y : Int) (ch : Char) (rgb : Nat × Nat × Nat) :
    Except AtlasError AtlasModel :=
  let code := ch.toNat
  if ¬ (VISIBLE_ASCII_MIN ≤ code ∧ code ≤ VISIBLE_ASCII_MAX) then
    .error .nonVisibleCharacter
  else
    match npIndex m.h y, npIndex m.w x with
    | some yi, some xi =>
        .ok ⟨m.w, m.h,
          m.cells.set (yi * m.w + xi) ⟨rgb.1 % 256, rgb.2.1 % 256, rgb.2.2 % 256, code⟩⟩
    | _, _ => .error .indexError

/-- `AtlasModel.clear(x, y)`: `arr[y, x] = (0, 0, 0, 0)`. -/
def AtlasModel.clear (m : AtlasModel) (x y : Int) : Except AtlasError AtlasModel :=
  match npIndex m.h y, npIndex m.w x with
  | some yi, some xi => .ok ⟨m.w, m.h, m.cells.set (yi * m.w + xi) ⟨0, 0, 0, 0⟩⟩
  | _, _ => .error .indexError

/-- The semantic Kind of a cell, dispatched on its alpha byte. The boundaries
are those of `AtlasPaintApp._draw_cell` (and identically
`export_preview_image`): `a == 0` clear, `a == 1` solid,
`32 <= a <= 126` glyph `chr(a)`, anything else invalid. -/
inductive Kind where
  | Clear
  | Solid
  | Glyph (code : Nat)
  | Invalid
deriving DecidableEq, Repr

/-- Alpha dispatch exactly as the `if/elif` chain of
`AtlasPaintApp._draw_cell` (lines 579-593). -/
def kindOf (a : Nat) : Kind :=
  if a = 0 then .Clear
  else if a = 1 then .Solid
  else if VISIBLE_ASCII_MIN ≤ a ∧ a ≤ VISIBLE_ASCII_MAX then .Glyph a
  else .Invalid

/-- Per-alpha validity test of `AtlasModel.valid_mask`:
`(a==0) | (a==1) | ((a>=32) & (a<=126))`. -/
def validAlpha (a : Nat) : Bool :=
  (a == 0) || (a == 1) ||
    (decide (VISIBLE_ASCII_MIN ≤ a) && decide (a ≤ VISIBLE_ASCII_MAX))

/-- `AtlasModel.valid_mask()`: the per-cell boolean validity mask. -/
def AtlasModel.valid_mask (m : AtlasModel) : List Bool :=
  m.cells.map fun c => validAlpha c.a

/-- `AtlasPaintApp.validate_atlas()` (the counting part): `total = ok.size`,
`bad = (~ok).sum()`, reported summary is `(total - bad, total)`. -/
def AtlasModel.validate (m : AtlasModel) : Nat × Nat :=
  let ok := m.valid_mask
  let total := ok.length
  let bad := (ok.map (fun v => !v)).count true
  (total - bad, total)

/-- Cell accessor at coordinate (x, y): row-major index `y*w + x`
(out-of-range reads default to the zero cell; the claims only use it
in-bounds). -/
def AtlasModel.getCell (m : AtlasModel) (x y : Nat) : Cell :=
  m.cells.getD (y * m.w + x) ⟨0, 0, 0, 0⟩

/-! ### Helper lemmas -/

theorem chunk4_flatten (cs : List Cell) : chunk4 (cs.flatMap cellBytes) = cs := by
  induction cs with
  | nil => rfl
  | cons c cs ih =>
    cases c
    rw [List.flatMap_cons]
    simp [cellBytes, chunk4, ih]

theorem flatten_chunk4 (d : List Nat) (h : d.length % 4 = 0) :
    (chunk4 d).flatMap cellBytes = d := by
  match d with
  | [] => rfl
  | [x] => simp at h
  | [x, y] => simp at h
  | [x, y, z] => simp at h
  | r :: g :: b :: a :: rest =>
    have hr : rest.length % 4 = 0 := by
      simp only [List.length_cons] at h
      omega
    have ih := flatten_chunk4 rest hr
    simp [chunk4, cellBytes, ih]

theorem chunk4_length (d : List Nat) : (chunk4 d).length = d.length / 4 := by
  match d with
  | [] => rfl
  | [x] => simp [chunk4]
  | [x, y] => simp [chunk4]
  | [x, y, z] => simp [chunk4]
  | r :: g :: b :: a :: rest =>
    have ih := chunk4_length rest
    simp [chunk4, ih]
    omega

theorem chunk4_getD (d : List Nat) (i : Nat) (h : 4 * i + 3 < d.length) :
    (chunk4 d).getD i ⟨0, 0, 0, 0⟩ =
      ⟨d.getD (4 * i) 0, d.getD (4 * i + 1) 0, d.getD (4 * i + 2) 0,
       d.getD (4 * i + 3) 0⟩ := by
  match d, i with
  | [], i => simp only [List.length_nil] at h; omega
  | [x], i => simp only [List.length_cons, List.length_nil] at h; omega
  | [x, y], i => simp only [List.length_cons, List.length_nil] at h; omega
  | [x, y, z], i => simp only [List.length_cons, List.length_nil] at h; omega
  | r :: g :: b :: a :: rest, 0 => simp [chunk4]
  | r :: g :: b :: a :: rest, i + 1 =>
    have hrest : 4 * i + 3 < rest.length := by
      simp only [List.length_cons] at h
      omega
    have ih := chunk4_getD rest i hrest
    have e4 : 4 * (i + 1) = 4 * i + 1 + 1 + 1 + 1 := by omega
    simp only [chunk4, List.getD_cons_succ, e4, ih]

theorem npIndex_of_nonneg (n : Nat) (i : Int) (h0 : 0 ≤ i) (hn : i < (n : Int)) :
    npIndex n i = some i.toNat := by
  simp [npIndex, Int.not_lt.mpr h0, h0, hn]

theorem npIndex_of_neg (n : Nat) (i : Int) (h0 : -(n : Int) ≤ i) (hn : i < 0) :
    npIndex n i = some (i + n).toNat := by
  simp only [npIndex, if_pos hn]
  rw [if_pos]
  constructor
  · omega
  · omega

theorem npIndex_none (n : Nat) (i : Int) (h : i < -(n : Int) ∨ (n : Int) ≤ i) :
    npIndex n i = none := by
  simp only [npIndex]
  rw [if_neg]
  rcases h with h | h <;> intro hc <;> rcases hc with ⟨h1, h2⟩
  · split at h1 <;> omega
  · split at h1 <;> split at h2 <;> omega

theorem rowMajor_inj (w i j xi yi : Nat) (hi : i < w) (hxi : xi < w)
    (h : j * w + i = yi * w + xi) : i = xi ∧ j = yi := by
  have h1 : (w * j + i) % w = i % w := Nat.mul_add_mod w j i
  have h2 : (w * yi + xi) % w = xi % w := Nat.mul_add_mod w yi xi
  rw [Nat.mul_comm w j] at h1
  rw [Nat.mul_comm w yi] at h2
  rw [Nat.mod_eq_of_lt hi] at h1
  rw [Nat.mod_eq_of_lt hxi] at h2
  have hix : i = xi := by rw [← h1, ← h2, h]
  refine ⟨hix, ?_⟩
  have hw : 0 < w := Nat.lt_of_le_of_lt (Nat.zero_le i) hi
  have hjm : j * w = yi * w := by omega
  exact Nat.eq_of_mul_eq_mul_right hw hjm

theorem validAlpha_iff (a : Nat) : validAlpha a = true ↔ kindOf a ≠ .Invalid := by
  unfold validAlpha kindOf VISIBLE_ASCII_MIN VISIBLE_ASCII_MAX
  split_ifs with h1 h2 h3 <;> simp_all

theorem bool_count_split (l : List Bool) :
    (l.map (fun v => !v)).count true + l.count true = l.length := by
  induction l with
  | nil => rfl
  | cons x xs ih =>
    cases x <;> simp [List.count_cons] <;> omega

theorem cellBytes_flatMap_length (cs : List Cell) :
    (cs.flatMap cellBytes).length = 4 * cs.length := by
  induction cs with
  | nil => rfl
  | cons c cs ih =>
    rw [List.flatMap_cons]
    simp [cellBytes, ih]
    omega

theorem rowMajor_lt (w h x y : Nat) (hx : x < w) (hy : y < h) : y * w + x < w * h := by
  have h1 : y * w + x < (y + 1) * w := by
    have : (y + 1) * w = y * w + w := by ring
    omega
  have h2 : (y + 1) * w ≤ h * w := Nat.mul_le_mul_right w hy
  have h3 : h * w = w * h := Nat.mul_comm h w
  omega

theorem set_pixel_in_bounds (m : AtlasModel) (x y : Int) (rgb : Nat × Nat × Nat)
    (hx0 : 0 ≤ x) (hxw : x < (m.w : Int)) (hy0 : 0 ≤ y) (hyh : y < (m.h : Int)) :
    m.set_pixel x y rgb =
      .ok ⟨m.w, m.h, m.cells.set (y.toNat * m.w + x.toNat)
        ⟨rgb.1 % 256, rgb.2.1 % 256, rgb.2.2 % 256, 1⟩⟩ := by
  unfold AtlasModel.set_pixel
  rw [npIndex_of_nonneg m.h y hy0 hyh, npIndex_of_nonneg m.w x hx0 hxw]

theorem set_char_in_bounds (m : AtlasModel) (x y : Int) (ch : Char) (rgb : Nat × Nat × Nat)
    (hch : VISIBLE_ASCII_MIN ≤ ch.toNat ∧ ch.toNat ≤ VISIBLE_ASCII_MAX)
    (hx0 : 0 ≤ x) (hxw : x < (m.w : Int)) (hy0 : 0 ≤ y) (hyh : y < (m.h : Int)) :
    m.set_char x y ch rgb =
      .ok ⟨m.w, m.h, m.cells.set (y.toNat * m.w + x.toNat)
        ⟨rgb.1 % 256, rgb.2.1 % 256, rgb.2.2 % 256, ch.toNat⟩⟩ := by
  unfold AtlasModel.set_char
  rw [if_neg (not_not_intro hch)]
  rw [npIndex_of_nonneg m.h y hy0 hyh, npIndex_of_nonneg m.w x hx0 hxw]

theorem clear_in_bounds (m : AtlasModel) (x y : Int)
    (hx0 : 0 ≤ x) (hxw : x < (m.w : Int)) (hy0 : 0 ≤ y) (hyh : y < (m.h : Int)) :
    m.clear x y =
      .ok ⟨m.w, m.h, m.cells.set (y.toNat * m.w + x.toNat) ⟨0, 0, 0, 0⟩⟩ := by
  unfold AtlasModel.clear
  rw [npIndex_of_nonneg m.h y hy0 hyh, npIndex_of_nonneg m.w x hx0 hxw]

theorem set_pixel_error_of_none (m : AtlasModel) (x y : Int) (rgb : Nat × Nat × Nat)
    (h : npIndex m.w x = none ∨ npIndex m.h y = none) :
    m.set_pixel x y rgb = .error .indexError := by
  unfold AtlasModel.set_pixel
  rcases h with h | h
  · rcases hy : npIndex m.h y with _ | yi <;> rw [h]
  · rw [h]

theorem clear_error_of_none (m : AtlasModel) (x y : Int)
    (h : npIndex m.w x = none ∨ npIndex m.h y = none) :
    m.clear x y = .error .indexError := by
  unfold AtlasModel.clear
  rcases h with h | h
  · rcases hy : npIndex m.h y with _ | yi <;> rw [h]
  · rw [h]

theorem set_char_error_of_none (m : AtlasModel) (x y : Int) (ch : Char)
    (rgb : Nat × Nat × Nat)
    (hch : VISIBLE_ASCII_MIN ≤ ch.toNat ∧ ch.toNat ≤ VISIBLE_ASCII_MAX)
    (h : npIndex m.w x = none ∨ npIndex m.h y = none) :
    m.set_char x y ch rgb = .error .indexError := by
  unfold AtlasModel.set_char
  rw [if_neg (not_not_intro hch)]
  rcases h with h | h
  · rcases hy : npIndex m.h y with _ | yi <;> rw [h]
  · rw [h]

theorem set_pixel_ok_shape (m : AtlasModel) (x y : Int) (rgb : Nat × Nat × Nat)
    (mNew : AtlasModel) (h : m.set_pixel x y rgb = .ok mNew) :
    mNew.w = m.w ∧ mNew.h = m.h ∧ mNew.cells.length = m.cells.length := by
  unfold AtlasModel.set_pixel at h
  rcases hy : npIndex m.h y with _ | yi <;> rcases hx : npIndex m.w x with _ | xi <;>
    rw [hy, hx] at h <;> simp only [] at h <;> cases h <;>
    simp [List.length_set]

theorem set_char_ok_shape (m : AtlasModel) (x y : Int) (ch : Char)
    (rgb : Nat × Nat × Nat) (mNew : AtlasModel) (h : m.set_char x y ch rgb = .ok mNew) :
    mNew.w = m.w ∧ mNew.h = m.h ∧ mNew.cells.length = m.cells.length := by
  unfold AtlasModel.set_char at h
  by_cases hch : VISIBLE_ASCII_MIN ≤ ch.toNat ∧ ch.toNat ≤ VISIBLE_ASCII_MAX
  · rw [if_neg (not_not_intro hch)] at h
    rcases hy : npIndex m.h y with _ | yi <;> rcases hx : npIndex m.w x with _ | xi <;>
      rw [hy, hx] at h <;> simp only [] at h <;> cases h <;>
      simp [List.length_set]
  · rw [if_pos hch] at h
    cases h

theorem clear_ok_shape (m : AtlasModel) (x y : Int) (mNew : AtlasModel)
    (h : m.clear x y = .ok mNew) :
    mNew.w = m.w ∧ mNew.h = m.h ∧ mNew.cells.length = m.cells.length := by
  unfold AtlasModel.clear at h
  rcases hy : npIndex m.h y with _ | yi <;> rcases hx : npIndex m.w x with _ | xi <;>
    rw [hy, hx] at h <;> simp only [] at h <;> cases h <;>
    simp [List.length_set]

/-! ### Claim theorems -/

/-- C1: encode/decode round-trip is byte-exact. For every buffer `b` with
`cells.length = w * h`, decoding the encoding of `b` with the same `w`, `h`
yields `b` cell-for-cell; and for every byte list `d` of length exactly
`w * h * 4`, encoding the result of decoding `d` yields `d` byte-for-byte
(no special-casing of Invalid-kind alpha bytes). -/
theorem encode_decode_roundtrip (m : AtlasModel) (d : List Nat) (w h : Nat)
    (hm : m.cells.length = m.w * m.h) (hd : d.length = w * h * 4) :
    AtlasModel.load_raw m.save_raw m.w m.h = .ok m ∧
    (∀ mNew, AtlasModel.load_raw d w h = .ok mNew → mNew.save_raw = d) := by
  constructor
  · have hlen : (AtlasModel.save_raw m).length = m.w * m.h * 4 := by
      unfold AtlasModel.save_raw
      rw [cellBytes_flatMap_length, hm]
      ring
    unfold AtlasModel.load_raw
    rw [if_neg (not_not_intro hlen)]
    unfold AtlasModel.save_raw
    rw [chunk4_flatten]
  · intro mNew hok
    unfold AtlasModel.load_raw at hok
    rw [if_neg (not_not_intro hd)] at hok
    cases hok
    unfold AtlasModel.save_raw
    exact flatten_chunk4 d (by omega)

/-- C1 witness: the round-trip theorem applied to a concrete one-cell buffer
and a concrete 4-byte stream with an Invalid alpha (200). -/
theorem encode_decode_roundtrip_witness :
    AtlasModel.load_raw (AtlasModel.save_raw ⟨1, 1, [⟨1, 2, 3, 4⟩]⟩) 1 1 =
      .ok ⟨1, 1, [⟨1, 2, 3, 4⟩]⟩ ∧
    (∀ mNew, AtlasModel.load_raw [9, 8, 7, 200] 1 1 = .ok mNew →
      mNew.save_raw = [9, 8, 7, 200]) :=
  encode_decode_roundtrip ⟨1, 1, [⟨1, 2, 3, 4⟩]⟩ [9, 8, 7, 200] 1 1 (by decide) (by decide)

/-- C2: decode succeeds iff the input length is exactly `w*h*4`; any other
length fails with `sizeMismatch` carrying the expected and actual counts; on
success every cell `(x, y)` holds the four bytes at offset `(y*w + x)*4`
as (R, G, B, A), with no rejection or transformation of out-of-range
alphas (the cell stores the byte verbatim). -/
theorem load_raw_contract (data : List Nat) (w h : Nat) :
    ((∃ m, AtlasModel.load_raw data w h = .ok m) ↔ data.length = w * h * 4) ∧
    (data.length ≠ w * h * 4 →
      AtlasModel.load_raw data w h = .error (.sizeMismatch (w * h * 4) data.length)) ∧
    (∀ m, AtlasModel.load_raw data w h = .ok m →
      m.w = w ∧ m.h = h ∧
      ∀ x y, x < w → y < h →
        m.getCell x y =
          ⟨data.getD ((y * w + x) * 4) 0, data.getD ((y * w + x) * 4 + 1) 0,
           data.getD ((y * w + x) * 4 + 2) 0, data.getD ((y * w + x) * 4 + 3) 0⟩) := by
  refine ⟨?_, ?_, ?_⟩
  · constructor
    · rintro ⟨m, hok⟩
      by_contra hne
      unfold AtlasModel.load_raw at hok
      rw [if_pos hne] at hok
      cases hok
    · intro hlen
      refine ⟨⟨w, h, chunk4 data⟩, ?_⟩
      unfold AtlasModel.load_raw
      rw [if_neg (not_not_intro hlen)]
  · intro hne
    unfold AtlasModel.load_raw
    rw [if_pos hne]
  · intro m hok
    have hlen : data.length = w * h * 4 := by
      by_contra hne
      unfold AtlasModel.load_raw at hok
      rw [if_pos hne] at hok
      cases hok
    unfold AtlasModel.load_raw at hok
    rw [if_neg (not_not_intro hlen)] at hok
    cases hok
    refine ⟨rfl, rfl, ?_⟩
    intro x y hx hy
    have hidx : y * w + x < w * h := rowMajor_lt w h x y hx hy
    have hbound : 4 * (y * w + x) + 3 < data.length := by
      rw [hlen]
      omega
    unfold AtlasModel.getCell
    have hgd := chunk4_getD data (y * w + x) hbound
    have e1 : (y * w + x) * 4 = 4 * (y * w + x) := Nat.mul_comm _ _
    rw [e1]
    exact hgd

/-- C2 witness: the contract applied to a short stream (rejected with the
reported sizes) and to a well-sized stream (cell read back verbatim,
including an Invalid alpha byte). -/
theorem load_raw_contract_witness :
    AtlasModel.load_raw [1, 2, 3] 1 1 = .error (.sizeMismatch 4 3) ∧
    AtlasModel.getCell ⟨1, 1, chunk4 [9, 8, 7, 200]⟩ 0 0 = ⟨9, 8, 7, 200⟩ := by
  constructor
  · exact (load_raw_contract [1, 2, 3] 1 1).2.1 (by decide)
  · have h := ((load_raw_contract [9, 8, 7, 200] 1 1).2.2
      ⟨1, 1, chunk4 [9, 8, 7, 200]⟩ (by decide)).2.2 0 0 (by decide) (by decide)
    simpa using h

/-- C3: alpha classification is total and disjoint with the exact boundaries
`A==0 → Clear`, `A==1 → Solid`, `32 ≤ A ≤ 126 → Glyph chr(A)`, everything
else Invalid; the listed edge values classify as stated; and the per-alpha
test used by `valid_mask` (content validation) agrees with the dispatch used
by `_draw_cell` (rendering). -/
theorem alpha_classification (a : Nat) :
    (kindOf a = .Clear ↔ a = 0) ∧
    (kindOf a = .Solid ↔ a = 1) ∧
    (kindOf a = .Glyph a ↔ (32 ≤ a ∧ a ≤ 126)) ∧
    (∀ c, kindOf a = .Glyph c → c = a) ∧
    (kindOf a = .Invalid ↔ ((2 ≤ a ∧ a ≤ 31) ∨ 127 ≤ a)) ∧
    (validAlpha a = true ↔ kindOf a ≠ .Invalid) ∧
    kindOf 0 = .Clear ∧ kindOf 1 = .Solid ∧ kindOf 31 = .Invalid ∧
    kindOf 32 = .Glyph 32 ∧ kindOf 126 = .Glyph 126 ∧ kindOf 127 = .Invalid ∧
    kindOf 255 = .Invalid := by
  refine ⟨?_, ?_, ?_, ?_, ?_, validAlpha_iff a,
    by decide, by decide, by decide, by decide, by decide, by decide, by decide⟩ <;>
  · unfold kindOf VISIBLE_ASCII_MIN VISIBLE_ASCII_MAX
    split_ifs <;> simp_all <;> omega

/-- C3 witness: the classification theorem applied at the Glyph boundary
value 32. -/
theorem alpha_classification_witness :
    kindOf 32 = .Glyph 32 ↔ (32 ≤ 32 ∧ 32 ≤ 126) :=
  (alpha_classification 32).2.2.1

/-- C4: starting from a fresh 2×1 buffer, `set_char(0,0,'A',(10,20,30))`
then `set_pixel(1,0,(1,2,3))` then `save_raw` produces exactly the bytes
`[10,20,30,65, 1,2,3,1]`. -/
theorem write_encode_scenario :
    (AtlasModel.init 2 1 >>= fun m0 =>
      m0.set_char 0 0 'A' (10, 20, 30) >>= fun m1 =>
        m1.set_pixel 1 0 (1, 2, 3) >>= fun m2 =>
          pure m2.save_raw) = Except.ok [10, 20, 30, 65, 1, 2, 3, 1] := by
  decide

theorem validAlpha_eq_decide (a : Nat) :
    validAlpha a = decide (kindOf a ≠ .Invalid) := by
  have h := validAlpha_iff a
  by_cases hk : kindOf a = .Invalid
  · have hva : validAlpha a = false := by
      cases hva : validAlpha a
      · rfl
      · exact absurd (h.mp hva) (by simp [hk])
    simp [hva, hk]
  · have hva : validAlpha a = true := h.mpr hk
    simp [hva, hk]

/-- C5: `validate` returns the count of cells whose Kind is not Invalid
together with the total cell count. It is a pure function of the buffer
(the source's `valid_mask`/`validate_atlas` allocate a fresh mask and only
read `arr`), so it cannot mutate the buffer and calling it twice returns
the same pair. On the 2×2 buffer with alphas `[0, 1, 32, 200]` it reports
3 valid out of 4. -/
theorem validate_counts (m : AtlasModel) :
    m.validate = (m.cells.countP (fun c => decide (kindOf c.a ≠ .Invalid)),
      m.cells.length) ∧
    AtlasModel.validate ⟨2, 2, [⟨0,0,0,0⟩, ⟨0,0,0,1⟩, ⟨0,0,0,32⟩, ⟨0,0,0,200⟩]⟩ =
      (3, 4) := by
  constructor
  · unfold AtlasModel.validate AtlasModel.valid_mask
    have hsplit := bool_count_split (m.cells.map fun c => validAlpha c.a)
    have hcount : (m.cells.map fun c => validAlpha c.a).count true =
        m.cells.countP fun c => decide (kindOf c.a ≠ .Invalid) := by
      rw [List.count_eq_countP, List.countP_map]
      refine List.countP_congr ?_
      intro c _
      simp [Function.comp, validAlpha_eq_decide]
    simp only [List.length_map]
    rw [Prod.mk.injEq]
    refine ⟨?_, rfl⟩
    rw [List.length_map] at hsplit
    omega
  · decide

/-- C5 witness: the counting theorem applied to the concrete 2×2 buffer of
the claim. -/
theorem validate_counts_witness :
    AtlasModel.validate ⟨2, 2, [⟨0,0,0,0⟩, ⟨0,0,0,1⟩, ⟨0,0,0,32⟩, ⟨0,0,0,200⟩]⟩ =
      (3, 4) :=
  (validate_counts ⟨1, 1, [⟨0, 0, 0, 0⟩]⟩).2

/-- C6: for every in-bounds coordinate, `set_char` with a character whose
code lies outside `[32, 126]` fails with `nonVisibleCharacter` and produces
no new buffer (the source raises before writing anything, so the buffer is
untouched — strong exception safety); with a code in `[32, 126]` it writes
`(r, g, b, code)` at the addressed cell. -/
theorem set_char_contract (m : AtlasModel) (x y : Int) (ch : Char) (r g b : Nat)
    (hx0 : 0 ≤ x) (hxw : x < (m.w : Int)) (hy0 : 0 ≤ y) (hyh : y < (m.h : Int))
    (hr : r < 256) (hg : g < 256) (hb : b < 256) :
    (¬ (32 ≤ ch.toNat ∧ ch.toNat ≤ 126) →
      m.set_char x y ch (r, g, b) = .error .nonVisibleCharacter) ∧
    (32 ≤ ch.toNat → ch.toNat ≤ 126 →
      m.set_char x y ch (r, g, b) =
        .ok ⟨m.w, m.h, m.cells.set (y.toNat * m.w + x.toNat)
          ⟨r, g, b, ch.toNat⟩⟩) := by
  constructor
  · intro hbad
    unfold AtlasModel.set_char VISIBLE_ASCII_MIN VISIBLE_ASCII_MAX
    simp only []
    rw [if_pos hbad]
  · intro h1 h2
    have h := set_char_in_bounds m x y ch (r, g, b) ⟨h1, h2⟩ hx0 hxw hy0 hyh
    rw [h, Nat.mod_eq_of_lt hr, Nat.mod_eq_of_lt hg, Nat.mod_eq_of_lt hb]

/-- C6 witness: on a 1×1 buffer, the non-visible character with code 31
is rejected, and `'A'` (code 65) writes `(5, 6, 7, 65)`. -/
theorem set_char_contract_witness :
    (AtlasModel.mk 1 1 [⟨9, 9, 9, 9⟩]).set_char 0 0 ⟨31, by decide⟩ (5, 6, 7) =
      .error .nonVisibleCharacter ∧
    (AtlasModel.mk 1 1 [⟨9, 9, 9, 9⟩]).set_char 0 0 'A' (5, 6, 7) =
      .ok ⟨1, 1, [⟨5, 6, 7, 65⟩]⟩ := by
  constructor
  · exact (set_char_contract ⟨1, 1, [⟨9, 9, 9, 9⟩]⟩ 0 0 ⟨31, by decide⟩ 5 6 7
      (by decide) (by decide) (by decide) (by decide)
      (by decide) (by decide) (by decide)).1 (by decide)
  · have h := (set_char_contract ⟨1, 1, [⟨9, 9, 9, 9⟩]⟩ 0 0 'A' 5 6 7
      (by decide) (by decide) (by decide) (by decide)
      (by decide) (by decide) (by decide)).2 (by decide) (by decide)
    exact h.trans (by decide)

/-- C7 counterexample: on a 2×1 buffer, `set_pixel(-1, 0, (5,6,7))` does not
fail with an out-of-bounds error; numpy wraps the negative index and the
call succeeds, writing cell `(1, 0)` — the buffer is altered. -/
theorem oob_negative_index_counterexample :
    (AtlasModel.mk 2 1 [⟨0,0,0,0⟩, ⟨0,0,0,0⟩]).set_pixel (-1) 0 (5, 6, 7) =
      .ok ⟨2, 1, [⟨0,0,0,0⟩, ⟨5,6,7,1⟩]⟩ ∧
    (AtlasModel.mk 2 1 [⟨0,0,0,0⟩, ⟨5,6,7,1⟩]) ≠ ⟨2, 1, [⟨0,0,0,0⟩, ⟨0,0,0,0⟩]⟩ := by
  decide

/-- C7 amended: a mutation coordinate raises the index error (leaving the
buffer untouched) exactly when it is out of numpy's accepted range
`[-size, size)` on either axis — in particular `set_pixel(w, 0, ·)` and
`clear(0, h)` fail as the claim states; but a negative coordinate in
`[-size, -1]` wraps Python-style, so e.g. `set_pixel(-1, y, rgb)` succeeds
and writes the cell at `(w-1, y)` instead of failing. -/
theorem oob_mutation_amended (m : AtlasModel) (x y : Int) (r g b : Nat) (ch : Char)
    (hch : 32 ≤ ch.toNat ∧ ch.toNat ≤ 126) :
    ((x < -(m.w : Int) ∨ (m.w : Int) ≤ x ∨ y < -(m.h : Int) ∨ (m.h : Int) ≤ y) →
      m.set_pixel x y (r, g, b) = .error .indexError ∧
      m.clear x y = .error .indexError ∧
      m.set_char x y ch (r, g, b) = .error .indexError) ∧
    (-(m.w : Int) ≤ x → x < 0 → 0 ≤ y → y < (m.h : Int) →
      m.set_pixel x y (r, g, b) =
        .ok ⟨m.w, m.h, m.cells.set (y.toNat * m.w + (x + m.w).toNat)
          ⟨r % 256, g % 256, b % 256, 1⟩⟩) := by
  constructor
  · intro hoob
    have hnone : npIndex m.w x = none ∨ npIndex m.h y = none := by
      rcases hoob with h | h | h | h
      · exact .inl (npIndex_none _ _ (.inl h))
      · exact .inl (npIndex_none _ _ (.inr h))
      · exact .inr (npIndex_none _ _ (.inl h))
      · exact .inr (npIndex_none _ _ (.inr h))
    exact ⟨set_pixel_error_of_none m x y (r, g, b) hnone,
      clear_error_of_none m x y hnone,
      set_char_error_of_none m x y ch (r, g, b) hch hnone⟩
  · intro hxl hx0 hy0 hyh
    unfold AtlasModel.set_pixel
    rw [npIndex_of_nonneg m.h y hy0 hyh, npIndex_of_neg m.w x hxl hx0]

/-- C7 witness: on a 2×1 buffer, the amended theorem at `x = 2` (i.e.
`x = width`) gives the three index-error failures, and at `x = -1` the
wrap-around write. -/
theorem oob_mutation_amended_witness :
    ((AtlasModel.mk 2 1 [⟨0,0,0,0⟩, ⟨0,0,0,0⟩]).set_pixel 2 0 (1, 2, 3) =
      .error .indexError ∧
     (AtlasModel.mk 2 1 [⟨0,0,0,0⟩, ⟨0,0,0,0⟩]).clear 2 0 = .error .indexError ∧
     (AtlasModel.mk 2 1 [⟨0,0,0,0⟩, ⟨0,0,0,0⟩]).set_char 2 0 'A' (1, 2, 3) =
      .error .indexError) :=
  (oob_mutation_amended ⟨2, 1, [⟨0,0,0,0⟩, ⟨0,0,0,0⟩]⟩ 2 0 1 2 3 'A'
    (by decide)).1 (by decide)

/-- C8 counterexample: constructing with width 0 (a non-positive dimension)
does not fail — `np.zeros((3, 0, 4))` succeeds, yielding a 0-cell buffer. -/
theorem init_zero_width_counterexample :
    AtlasModel.init 0 3 = .ok ⟨0, 3, []⟩ := by decide

/-- C8 amended: construction with `width ≥ 1` and `height ≥ 1` yields a
buffer of exactly `width*height` cells whose four bytes are all zero (all
Clear); but the constructor performs no positivity validation of its own —
any nonnegative dimensions succeed (zero gives an empty buffer) and only
negative dimensions fail, with numpy's negative-dimension error rather than
a dedicated InvalidDimensions check. The `w ≥ 1, h ≥ 1` case below is
stated for all nonnegative dimensions, which subsumes it. -/
theorem init_contract_amended (w h : Int) :
    (0 ≤ w → 0 ≤ h →
      ∀ m, AtlasModel.init w h = .ok m →
        m.w = w.toNat ∧ m.h = h.toNat ∧ m.cells.length = w.toNat * h.toNat ∧
        ∀ c ∈ m.cells, c = ⟨0, 0, 0, 0⟩ ∧ kindOf c.a = .Clear) ∧
    (0 ≤ w → 0 ≤ h → AtlasModel.init w h =
      .ok ⟨w.toNat, h.toNat, List.replicate (h.toNat * w.toNat) ⟨0, 0, 0, 0⟩⟩) ∧
    ((w < 0 ∨ h < 0) → AtlasModel.init w h = .error .negativeDimensions) := by
  refine ⟨?_, ?_, ?_⟩
  · intro hw hh m hok
    unfold AtlasModel.init at hok
    rw [if_neg (by omega)] at hok
    cases hok
    refine ⟨rfl, rfl, ?_, ?_⟩
    · simp [List.length_replicate, Nat.mul_comm]
    · intro c hc
      have hcz := List.eq_of_mem_replicate hc
      subst hcz
      exact ⟨rfl, by decide⟩
  · intro hw hh
    unfold AtlasModel.init
    rw [if_neg (by omega)]
  · intro hneg
    unfold AtlasModel.init
    rw [if_pos hneg]

/-- C8 witness: the amended construction contract at the concrete
dimensions 2×1 (success with two zero cells) and at width −1 (failure). -/
theorem init_contract_amended_witness :
    AtlasModel.init 2 1 = .ok ⟨2, 1, List.replicate (1 * 2) ⟨0, 0, 0, 0⟩⟩ ∧
    AtlasModel.init (-1) 1 = .error .negativeDimensions :=
  ⟨(init_contract_amended 2 1).2.1 (by decide) (by decide),
   (init_contract_amended (-1) 1).2.2 (by decide)⟩

/-- C9: the size invariant `cells.length = width * height` holds after
construction and after a successful load, and every successful mutation
(`set_pixel`, `set_char`, `clear`) preserves the width, the height and the
cell count (mutations are in-place single-cell writes, never resizes). -/
theorem size_invariant :
    (∀ (w h : Int) (m : AtlasModel), AtlasModel.init w h = .ok m →
      m.cells.length = m.w * m.h) ∧
    (∀ (d : List Nat) (w h : Nat) (m : AtlasModel),
      AtlasModel.load_raw d w h = .ok m → m.cells.length = m.w * m.h) ∧
    (∀ (m : AtlasModel) (x y : Int) (rgb : Nat × Nat × Nat) (mNew : AtlasModel),
      m.set_pixel x y rgb = .ok mNew →
      mNew.w = m.w ∧ mNew.h = m.h ∧ mNew.cells.length = m.cells.length) ∧
    (∀ (m : AtlasModel) (x y : Int) (ch : Char) (rgb : Nat × Nat × Nat)
      (mNew : AtlasModel), m.set_char x y ch rgb = .ok mNew →
      mNew.w = m.w ∧ mNew.h = m.h ∧ mNew.cells.length = m.cells.length) ∧
    (∀ (m : AtlasModel) (x y : Int) (mNew : AtlasModel),
      m.clear x y = .ok mNew →
      mNew.w = m.w ∧ mNew.h = m.h ∧ mNew.cells.length = m.cells.length) := by
  refine ⟨?_, ?_, set_pixel_ok_shape, set_char_ok_shape, clear_ok_shape⟩
  · intro w h m hok
    unfold AtlasModel.init at hok
    by_cases hneg : w < 0 ∨ h < 0
    · rw [if_pos hneg] at hok
      cases hok
    · rw [if_neg hneg] at hok
      cases hok
      simp [List.length_replicate, Nat.mul_comm]
  · intro d w h m hok
    unfold AtlasModel.load_raw at hok
    by_cases hlen : d.length = w * h * 4
    · rw [if_neg (not_not_intro hlen)] at hok
      cases hok
      simp only [chunk4_length, hlen]
      omega
    · rw [if_pos hlen] at hok
      cases hok

/-- C9 witness: the invariant instantiated on a fresh 2×1 buffer and on a
`set_pixel` step over it. -/
theorem size_invariant_witness :
    (AtlasModel.mk 2 1 [⟨0,0,0,0⟩, ⟨0,0,0,0⟩]).cells.length =
      (AtlasModel.mk 2 1 [⟨0,0,0,0⟩, ⟨0,0,0,0⟩]).w *
      (AtlasModel.mk 2 1 [⟨0,0,0,0⟩, ⟨0,0,0,0⟩]).h ∧
    (AtlasModel.mk 2 1 [⟨0,0,0,0⟩, ⟨5,6,7,1⟩]).w =
      (AtlasModel.mk 2 1 [⟨0,0,0,0⟩, ⟨0,0,0,0⟩]).w ∧
    (AtlasModel.mk 2 1 [⟨0,0,0,0⟩, ⟨5,6,7,1⟩]).h =
      (AtlasModel.mk 2 1 [⟨0,0,0,0⟩, ⟨0,0,0,0⟩]).h ∧
    (AtlasModel.mk 2 1 [⟨0,0,0,0⟩, ⟨5,6,7,1⟩]).cells.length =
      (AtlasModel.mk 2 1 [⟨0,0,0,0⟩, ⟨0,0,0,0⟩]).cells.length :=
  ⟨size_invariant.1 2 1 ⟨2, 1, [⟨0,0,0,0⟩, ⟨0,0,0,0⟩]⟩ (by decide),
   size_invariant.2.2.1 ⟨2, 1, [⟨0,0,0,0⟩, ⟨0,0,0,0⟩]⟩ 1 0 (5, 6, 7)
     ⟨2, 1, [⟨0,0,0,0⟩, ⟨5,6,7,1⟩]⟩ (by decide)⟩

/-- The frame condition: `mNew` agrees with `m` on the dimensions and on
every in-bounds cell other than `(xi, yi)`. -/
def frameOK (m mNew : AtlasModel) (xi yi : Nat) : Prop :=
  mNew.w = m.w ∧ mNew.h = m.h ∧
  ∀ i j : Nat, i < m.w → j < m.h → ¬(i = xi ∧ j = yi) →
    mNew.getCell i j = m.getCell i j

theorem frameOK_of_set (m : AtlasModel) (xi yi : Nat) (v : Cell)
    (hxi : xi < m.w) :
    frameOK m ⟨m.w, m.h, m.cells.set (yi * m.w + xi) v⟩ xi yi := by
  refine ⟨rfl, rfl, ?_⟩
  intro i j hi hj hne
  unfold AtlasModel.getCell
  simp only []
  have hidx : j * m.w + i ≠ yi * m.w + xi := by
    intro heq
    exact hne (rowMajor_inj m.w i j xi yi hi hxi heq)
  rw [List.getD_eq_getElem?_getD, List.getD_eq_getElem?_getD,
    List.getElem?_set_ne (fun hc => hidx hc.symm)]

/-- C10 (implicit frame property): every successful in-bounds mutation —
`set_pixel`, `set_char` with a visible character, or `clear` — changes at
most the single cell at `(x, y)`; the width, the height and every other
in-bounds cell are left byte-for-byte unchanged. -/
theorem mutation_frame (m : AtlasModel) (x y : Int) (rgb : Nat × Nat × Nat)
    (ch : Char)
    (hx0 : 0 ≤ x) (hxw : x < (m.w : Int)) (hy0 : 0 ≤ y) (hyh : y < (m.h : Int)) :
    (∀ mNew, m.set_pixel x y rgb = .ok mNew → frameOK m mNew x.toNat y.toNat) ∧
    (∀ mNew, m.set_char x y ch rgb = .ok mNew → frameOK m mNew x.toNat y.toNat) ∧
    (∀ mNew, m.clear x y = .ok mNew → frameOK m mNew x.toNat y.toNat) := by
  have hxi : x.toNat < m.w := by omega
  refine ⟨?_, ?_, ?_⟩
  · intro mNew hok
    rw [set_pixel_in_bounds m x y rgb hx0 hxw hy0 hyh] at hok
    cases hok
    exact frameOK_of_set m x.toNat y.toNat _ hxi
  · intro mNew hok
    by_cases hch : VISIBLE_ASCII_MIN ≤ ch.toNat ∧ ch.toNat ≤ VISIBLE_ASCII_MAX
    · rw [set_char_in_bounds m x y ch rgb hch hx0 hxw hy0 hyh] at hok
      cases hok
      exact frameOK_of_set m x.toNat y.toNat _ hxi
    · unfold AtlasModel.set_char at hok
      rw [if_pos hch] at hok
      cases hok
  · intro mNew hok
    rw [clear_in_bounds m x y hx0 hxw hy0 hyh] at hok
    cases hok
    exact frameOK_of_set m x.toNat y.toNat _ hxi

/-- C10 witness: on a 2×1 buffer, a `set_pixel` write at `(0, 0)` leaves
the other cell `(1, 0)` unchanged. -/
theorem mutation_frame_witness :
    (AtlasModel.mk 2 1 [⟨5,6,7,1⟩, ⟨4,4,4,4⟩]).getCell 1 0 =
      (AtlasModel.mk 2 1 [⟨9,9,9,9⟩, ⟨4,4,4,4⟩]).getCell 1 0 :=
  ((mutation_frame ⟨2, 1, [⟨9,9,9,9⟩, ⟨4,4,4,4⟩]⟩ 0 0 (5, 6, 7) 'A'
      (by decide) (by decide) (by decide) (by decide)).1
    ⟨2, 1, [⟨5,6,7,1⟩, ⟨4,4,4,4⟩]⟩ (by decide)).2.2 1 0
    (by decide) (by decide) (by decide)
